import Mathlib

set_option linter.unnecessarySeqFocus false
set_option linter.unusedVariables false

/- Verification of the memory-arena / persistent-vector subsystem of the
relational-search repository (crates/docatlas-core/src/persist): the block
builder and open-path registry (block.rs), the persistent vector with its
push/pop/remove/drain operations (persisted_vec.rs), and the concurrent
range-splitting accessor (SplitMut, persisted_vec.rs). -/

/-- Size in bytes of a `usize` length word on the 64-bit target assumed
throughout, i.e. `std::mem::size_of::<usize>()`. -/
def usizeSize : Nat := 8

/-- State of a `PersistentVec<T>` (persisted_vec.rs): a backing arena of `size`
bytes whose first machine word stores the element count, and `elems`, the
contents of the element slots `[0, len)` that follow the length word
(`len() = elems.length`).  The untyped arena interface that persisted_vec.rs
uses (`size`, `reserve`, `as_typed_ptr`) is modelled from the spec: the arena
is a contiguous byte region that reports its byte length, `reserve(n)` grows
it by `n` bytes preserving the existing byte prefix, and the bytes after the
length word hold the packed element array. -/
structure PersistentVec (T : Type) where
  size : Nat
  elems : List T

namespace PersistentVec

variable {T : Type}

/-- `capacity()` (persisted_vec.rs lines 74-80): `block.size()` minus the byte
offset of the data pointer from the block base.  The data pointer is
`as_typed_ptr::<usize>().add(1)`, i.e. base plus 8 bytes, so the result is a
count of bytes after the length word, with no division by `size_of::<T>()`. -/
def capacity (st : PersistentVec T) : Nat := st.size - usizeSize

/-- The element-slot capacity formula stated by the spec for `capacity()`:
arena size minus header overhead, divided by `size_of::<T>()` (`w`). -/
def slotCapacitySpec (size w : Nat) : Nat := (size - usizeSize) / w

/-- One iteration of the growth loop body in `push` (persisted_vec.rs lines
127-134): `self.block.reserve(capacity * T::size() + value.size_of())`, which
adds that many bytes to the arena.  `w` models `size_of::<T>()`. -/
def growStep (w : Nat) (st : PersistentVec T) : PersistentVec T :=
  { st with size := st.size + capacity st * w + w }

/-- The `while self.len() + 1 >= self.capacity()` loop of `push`, with explicit
fuel.  For `w ≥ 1` the fuel `len + 10` supplied by `push` is more than enough
to reach the exit condition; for a zero-sized `T` the real loop never
terminates, which the fuel cuts off (no claim concerns zero-sized types). -/
def growToFit (w : Nat) : Nat → PersistentVec T → PersistentVec T
  | 0, st => st
  | fuel + 1, st =>
    if st.elems.length + 1 ≥ capacity st then growToFit w fuel (growStep w st) else st

/-- `push` (persisted_vec.rs lines 126-140): run the growth loop, write the
value at slot `len`, then store `len + 1` in the length word. -/
def push (w : Nat) (st : PersistentVec T) (v : T) : PersistentVec T :=
  let st' := growToFit w (st.elems.length + 10) st
  { st' with elems := st'.elems ++ [v] }

/-- Byte extent `[lo, hi)` touched by the element write
`std::ptr::write(self.as_data_ptr_mut().add(self.len()), value)` inside `push`,
taken in the state after the growth loop: slot `len` starts at byte
`8 + len * w` and ends at byte `8 + (len + 1) * w`. -/
def pushWriteExtent (w : Nat) (st : PersistentVec T) : Nat × Nat :=
  let st' := growToFit w (st.elems.length + 10) st
  (usizeSize + st'.elems.length * w, usizeSize + (st'.elems.length + 1) * w)

/-- Iterated `push`, the model of `extend` (persisted_vec.rs lines 300-306). -/
def pushN (w : Nat) (st : PersistentVec T) (vs : List T) : PersistentVec T :=
  vs.foldl (push w) st

/-- `pop` (persisted_vec.rs lines 142-153): if `len > 0`, read the element at
slot `len - 1` (the last live element) and store `len - 1`; otherwise `None`. -/
def pop (st : PersistentVec T) : Option T × PersistentVec T :=
  if st.elems.isEmpty then (none, st)
  else (st.elems.getLast?, { st with elems := st.elems.dropLast })

/-- Iterated `pop`, returning the popped values in order. -/
def popN : Nat → PersistentVec T → List (Option T) × PersistentVec T
  | 0, st => ([], st)
  | n + 1, st =>
    let r := pop st
    let rs := popN n r.2
    (r.1 :: rs.1, rs.2)

/-- `remove(index)` (persisted_vec.rs lines 155-181).  A `none` first component
models the panic on `index >= len`.  Otherwise the element at slot `index` is
read out and the slots `index+1 .. len` are shifted down one slot
(`std::ptr::copy`), after which the stored length is decremented.  The source
special-cases the last index through `pop`, which coincides with the general
shift of zero elements. -/
def remove (st : PersistentVec T) (index : Nat) : Option T × PersistentVec T :=
  if index ≥ st.elems.length then (none, st)
  else (st.elems[index]?,
        { st with elems := st.elems.take index ++ st.elems.drop (index + 1) })

end PersistentVec

/- ------------------------------------------------------------------ -/
/- Helper lemmas for the vector model.                                 -/
/- ------------------------------------------------------------------ -/

namespace PersistentVec

/-- The growth loop only changes the arena size, never the element slots. -/
theorem growToFit_elems (w : Nat) :
    ∀ (fuel : Nat) (st : PersistentVec T), (growToFit w fuel st).elems = st.elems := by
  intro fuel
  induction fuel with
  | zero => intro st; rfl
  | succ f ih =>
    intro st
    unfold growToFit
    by_cases h : st.elems.length + 1 ≥ capacity st
    · rw [if_pos h, ih]; rfl
    · rw [if_neg h]

/-- `push` appends the new value after the existing elements. -/
theorem push_elems (w : Nat) (st : PersistentVec T) (v : T) :
    (push w st v).elems = st.elems ++ [v] := by
  unfold push
  simp [growToFit_elems]

/-- Iterated `push` appends the pushed values in order: the elements occupy a
contiguous prefix and pushes never disturb earlier slots. -/
theorem pushN_elems (w : Nat) :
    ∀ (vs : List T) (st : PersistentVec T), (pushN w st vs).elems = st.elems ++ vs := by
  intro vs
  induction vs with
  | nil => intro st; simp [pushN]
  | cons v vs ih =>
    intro st
    show (pushN w (push w st v) vs).elems = _
    rw [ih, push_elems]
    simp

/-- Popping `vs.length` times from a state whose slots hold `base ++ vs`
returns exactly `vs` reversed (each pop a `some`) and leaves `base`. -/
theorem popN_append :
    ∀ (vs : List T) (st : PersistentVec T) (base : List T), st.elems = base ++ vs →
      popN vs.length st = ((vs.reverse.map some), ⟨st.size, base⟩) := by
  intro vs
  induction vs using List.reverseRecOn with
  | nil =>
    intro st base h
    simp at h
    simp [popN, ← h]
  | append_singleton ws v ih =>
    intro st base h
    have hlen : (ws ++ [v]).length = ws.length + 1 := by simp
    rw [hlen]
    have hne : ¬st.elems.isEmpty := by
      rw [h, ← List.append_assoc]
      simp
    have hpop : pop st = (some v, { st with elems := base ++ ws }) := by
      unfold pop
      rw [if_neg hne, h, ← List.append_assoc, List.getLast?_concat, List.dropLast_concat]
    show (let r := pop st
          let rs := popN ws.length r.2
          (r.1 :: rs.1, rs.2)) = _
    rw [hpop]
    have := ih ({ st with elems := base ++ ws }) base rfl
    simp only [this]
    simp [List.reverse_concat]

end PersistentVec

/- ------------------------------------------------------------------ -/
/- Drain (persisted_vec.rs lines 446-498).                             -/
/- ------------------------------------------------------------------ -/

/-- One of the three forms a `std::ops::Bound<&usize>` can take when a range
is passed to `drain`. -/
inductive RangeBound where
  | inc (n : Nat)
  | exc (n : Nat)
  | unb

namespace PersistentVec

variable {T : Type}

/-- Resolution of the start bound in `Drain::new` (persisted_vec.rs lines
456-460): `Included(i) → i`, `Excluded(i) → i + 1`, `Unbounded → 0`. -/
def resolveStart : RangeBound → Nat
  | .inc i => i
  | .exc i => i + 1
  | .unb => 0

/-- The inclusive end bound of `Drain::new` (lines 461-465) as a mathematical
integer: `Included(i) → i`, `Excluded(i) → i - 1`, `Unbounded → len - 1`. -/
def resolveEnd : RangeBound → Nat → Int
  | .inc i, _ => (i : Int)
  | .exc i, _ => (i : Int) - 1
  | .unb, len => (len : Int) - 1

/-- `Drain::new` (persisted_vec.rs lines 454-478).  `none` models a panic:
either a `usize` underflow while computing the inclusive end bound
(`Excluded(0)` gives `*i - 1`, `Unbounded` on an empty vector gives
`vec.len() - 1`), or one of the explicit bound checks
(`start > end`, `end >= vec.len()`).  On success it returns the `start`
index and the removal count `(end + 1) - start`. -/
def drainNew (len : Nat) (sb eb : RangeBound) : Option (Nat × Nat) :=
  let start := resolveStart sb
  let endU : Option Nat :=
    match eb with
    | .inc i => some i
    | .exc i => if i = 0 then none else some (i - 1)
    | .unb => if len = 0 then none else some (len - 1)
  match endU with
  | none => none
  | some e =>
    if start > e then none
    else if e ≥ len then none
    else some (start, e + 1 - start)

/-- The iterator/drop behaviour of `Drain` (persisted_vec.rs lines 481-498):
`next` performs `self.vec.remove(self.start)` while `removed < count`; dropping
the `Drain` runs the iterator to exhaustion.  `drainRun k s st` performs `k`
such removals at index `s`. -/
def drainRun : Nat → Nat → PersistentVec T → List (Option T) × PersistentVec T
  | 0, _, st => ([], st)
  | k + 1, s, st =>
    let r := remove st s
    let rs := drainRun k s r.2
    (r.1 :: rs.1, rs.2)

/-- Characterisation of `k` in-bounds removals at index `s`: they yield the
slice `[s, s + k)` in order and splice it out of the vector. -/
theorem drainRun_spec (c s : Nat) :
    ∀ st : PersistentVec T, s + c ≤ st.elems.length →
      drainRun c s st =
        (((st.elems.drop s).take c).map some,
          ⟨st.size, st.elems.take s ++ st.elems.drop (s + c)⟩) := by
  induction c with
  | zero =>
    intro st h
    simp [drainRun, List.take_append_drop]
  | succ c ih =>
    intro st h
    have hs : s < st.elems.length := by omega
    have hslen : (st.elems.take s).length = s := by
      simp [List.length_take]
      omega
    have hrem : remove st s =
        (st.elems[s]?, ⟨st.size, st.elems.take s ++ st.elems.drop (s + 1)⟩) := by
      unfold remove
      rw [if_neg (by omega)]
    have hlen1 : (st.elems.take s ++ st.elems.drop (s + 1)).length = st.elems.length - 1 := by
      simp [List.length_take, List.length_drop]
      omega
    have hih := ih ⟨st.size, st.elems.take s ++ st.elems.drop (s + 1)⟩ (by simp only [hlen1]; omega)
    show (let r := remove st s
          let rs := drainRun c s r.2
          (r.1 :: rs.1, rs.2)) = _
    rw [hrem]
    simp only [hih]
    have hdropA : (st.elems.take s ++ st.elems.drop (s + 1)).drop s = st.elems.drop (s + 1) :=
      List.drop_left' hslen
    have htakeA : (st.elems.take s ++ st.elems.drop (s + 1)).take s = st.elems.take s :=
      List.take_left' hslen
    have hdropC : (st.elems.take s ++ st.elems.drop (s + 1)).drop (s + c) =
        st.elems.drop (s + (c + 1)) := by
      rw [← List.drop_drop, hdropA, List.drop_drop]
      congr 1
      omega
    have hslice : (st.elems.drop s).take (c + 1) =
        st.elems[s] :: (st.elems.drop (s + 1)).take c := by
      rw [List.drop_eq_getElem_cons hs]
      rfl
    rw [hdropA, htakeA, hdropC, hslice, List.getElem?_eq_getElem hs]
    rfl

/-- The final state of a drain does not depend on where iteration is split:
running `a` removals and then `b` more is running `a + b` removals. -/
theorem drainRun_snd_add (a b s : Nat) :
    ∀ st : PersistentVec T,
      (drainRun (a + b) s st).2 = (drainRun b s (drainRun a s st).2).2 := by
  induction a with
  | zero =>
    intro st
    rw [Nat.zero_add]
    rfl
  | succ a ih =>
    intro st
    rw [Nat.succ_add]
    show (drainRun (a + b) s (remove st s).2).2 = _
    rw [ih]
    rfl

end PersistentVec

/- ------------------------------------------------------------------ -/
/- Claims C1, C2, C3.                                                  -/
/- ------------------------------------------------------------------ -/

/-- C1: the spec claims `len * size_of::<T>() ≤ arena.size() − header_size`
always holds and that no element slot at byte offsets beyond the arena is ever
written.  The code violates this: with `size_of::<T>() = 8` (e.g. `usize`) and
a fresh 64-byte arena, `capacity()` returns `64 − 8 = 56` bytes, which `push`
compares against the element count, so eight pushes trigger no growth; after
them `len * 8 = 64 > 56`, and the eighth push writes bytes `[64, 72)`, past
the 64-byte arena. -/
theorem push_overruns_arena :
    (PersistentVec.pushN 8 (⟨64, []⟩ : PersistentVec Nat) (List.replicate 8 0)).size = 64 ∧
    (PersistentVec.pushN 8 (⟨64, []⟩ : PersistentVec Nat) (List.replicate 8 0)).elems.length = 8 ∧
    (PersistentVec.pushN 8 (⟨64, []⟩ : PersistentVec Nat) (List.replicate 8 0)).elems.length * 8 >
      (PersistentVec.pushN 8 (⟨64, []⟩ : PersistentVec Nat) (List.replicate 8 0)).size - usizeSize ∧
    (PersistentVec.pushWriteExtent 8
      (PersistentVec.pushN 8 (⟨64, []⟩ : PersistentVec Nat) (List.replicate 7 0))).2 >
      (PersistentVec.pushN 8 (⟨64, []⟩ : PersistentVec Nat) (List.replicate 7 0)).size := by
  decide

/-- C2: the spec claims `capacity()` returns the number of element slots,
i.e. `(arena.size() − header) / size_of::<T>()`.  The code never divides: on a
64-byte arena with 8-byte elements it returns 56 (bytes after the header)
while the claimed slot count is 7. -/
theorem capacity_is_bytes_not_slots :
    PersistentVec.capacity (⟨64, []⟩ : PersistentVec Nat) = 56 ∧
    PersistentVec.slotCapacitySpec 64 8 = 7 ∧
    PersistentVec.capacity (⟨64, []⟩ : PersistentVec Nat) ≠ PersistentVec.slotCapacitySpec 64 8 := by
  decide

/-- C3: from any state, pushing `v1..vn` and then popping `n` times yields
`vn..v1` with every pop a `Some`, and afterwards the vector's length and
contents equal those of the starting state (so a vector that started empty
ends with `len() = 0`). -/
theorem push_pop_lifo (T : Type) (w : Nat) (st : PersistentVec T) (vs : List T) :
    (PersistentVec.popN vs.length (PersistentVec.pushN w st vs)).1 = vs.reverse.map some ∧
    (PersistentVec.popN vs.length (PersistentVec.pushN w st vs)).2.elems = st.elems := by
  have h := PersistentVec.popN_append vs (PersistentVec.pushN w st vs) st.elems
    (PersistentVec.pushN_elems w vs st)
  rw [h]
  exact ⟨rfl, rfl⟩

/-- C7: `drain` panics exactly when the resolved inclusive bounds satisfy
`start > end` or `end ≥ len`; otherwise it yields the elements at positions
`start..=end` in order, and once the `Drain` is dropped -- regardless of how
many elements were consumed before the drop -- the vector holds exactly the
elements outside the range in their original relative order. -/
theorem drain_correct (T : Type) (st : PersistentVec T) (sb eb : RangeBound) :
    (PersistentVec.drainNew st.elems.length sb eb = none ↔
      PersistentVec.resolveEnd eb st.elems.length < (PersistentVec.resolveStart sb : Int) ∨
      (st.elems.length : Int) ≤ PersistentVec.resolveEnd eb st.elems.length) ∧
    (∀ s c, PersistentVec.drainNew st.elems.length sb eb = some (s, c) →
      (PersistentVec.drainRun c s st).1 = ((st.elems.drop s).take c).map some ∧
      (PersistentVec.drainRun c s st).2.elems = st.elems.take s ++ st.elems.drop (s + c) ∧
      (∀ k, k ≤ c →
        (PersistentVec.drainRun (c - k) s (PersistentVec.drainRun k s st).2).2.elems =
          st.elems.take s ++ st.elems.drop (s + c))) := by
  constructor
  · generalize st.elems.length = n
    cases eb <;>
      (dsimp only [PersistentVec.drainNew, PersistentVec.resolveEnd] <;>
        split_ifs <;> simp <;> omega)
  · intro s c h
    have hsum : s + c ≤ st.elems.length ∧ 0 < c := by
      generalize hn : st.elems.length = n at h ⊢
      cases eb <;>
        (dsimp only [PersistentVec.drainNew] at h <;>
          split_ifs at h <;> simp_all <;> omega)
    have hspec := PersistentVec.drainRun_spec c s st hsum.1
    refine ⟨by rw [hspec], by rw [hspec], ?_⟩
    intro k hk
    have hke : k + (c - k) = c := by omega
    rw [← PersistentVec.drainRun_snd_add k (c - k) s st, hke, hspec]

/-- Witness for C7: on `[0,1,2,3,4]`, `drain(1..=3)` resolves to start 1 and
count 3, yields `[1,2,3]`, and leaves `[0,4]` whether the drain is consumed in
full or dropped after one `next`. -/
theorem drain_correct_witness :
    PersistentVec.drainNew 5 (RangeBound.inc 1) (RangeBound.inc 3) = some (1, 3) ∧
    (PersistentVec.drainRun 3 1 (⟨512, [0, 1, 2, 3, 4]⟩ : PersistentVec Nat)).1 =
      [some 1, some 2, some 3] ∧
    (PersistentVec.drainRun 3 1 (⟨512, [0, 1, 2, 3, 4]⟩ : PersistentVec Nat)).2.elems = [0, 4] ∧
    (PersistentVec.drainRun 2 1
      (PersistentVec.drainRun 1 1 (⟨512, [0, 1, 2, 3, 4]⟩ : PersistentVec Nat)).2).2.elems =
      [0, 4] := by
  have h := (drain_correct Nat ⟨512, [0, 1, 2, 3, 4]⟩ (RangeBound.inc 1) (RangeBound.inc 3)).2
    1 3 (by decide)
  exact ⟨by decide, h.1.trans (by decide), h.2.1.trans (by decide),
    (h.2.2 1 (by decide)).trans (by decide)⟩

/- ------------------------------------------------------------------ -/
/- SplitMut (persisted_vec.rs lines 355-444).                          -/
/- ------------------------------------------------------------------ -/

/-- State of a `SplitMut` over a persistent vector (persisted_vec.rs lines
357-377): the source elements, the chunk size, and the per-chunk
`AtomicIsize` access states (`0` free, `1` write-held, negative values
counting concurrent readers). -/
structure SplitMut (T : Type) where
  elems : List T
  splitSize : Nat
  access : List Int

namespace SplitMut

variable {T : Type}

/-- `split_count` (persisted_vec.rs lines 388-395): `len / split_size`, plus
one when the division is inexact. -/
def splitCount (len splitSize : Nat) : Nat :=
  len / splitSize + (if len % splitSize = 0 then 0 else 1)

/-- `SplitMut::new` (persisted_vec.rs lines 365-377): one atomic access state
per chunk, all initialised to zero. -/
def new (elems : List T) (splitSize : Nat) : SplitMut T :=
  ⟨elems, splitSize, List.replicate (splitCount elems.length splitSize) 0⟩

/-- The slice `&source[lower..upper]` handed out for chunk `index`, where
`lower = index * split_size` and `upper = min(len, (index + 1) * split_size)`. -/
def sliceOf (sm : SplitMut T) (index : Nat) : List T :=
  (sm.elems.take (min sm.elems.length ((index + 1) * sm.splitSize))).drop
    (index * sm.splitSize)

/-- `read` (persisted_vec.rs lines 405-424): after the `lower < len` range
check, a `fetch_update` turns a non-positive state `v` into `v - 1` and hands
out the chunk slice; a positive state makes it return `None` with the state
unchanged.  A failed access lookup models the slice-indexing panic on a chunk
index beyond the access array, which cannot happen when
`index * split_size < len`. -/
def read (sm : SplitMut T) (index : Nat) : Option (List T) × SplitMut T :=
  if index * sm.splitSize < sm.elems.length then
    match sm.access[index]? with
    | some v =>
      if v ≤ 0 then
        (some (sliceOf sm index), { sm with access := sm.access.set index (v - 1) })
      else (none, sm)
    | none => (none, sm)
  else (none, sm)

/-- `write` (persisted_vec.rs lines 426-443): after the range check, a
`compare_exchange(0, 1)`; on success the chunk slice is handed out mutably,
on failure (any reader or writer present) it returns `None`. -/
def write (sm : SplitMut T) (index : Nat) : Option (List T) × SplitMut T :=
  if index * sm.splitSize < sm.elems.length then
    match sm.access[index]? with
    | some v =>
      if v = 0 then
        (some (sliceOf sm index), { sm with access := sm.access.set index 1 })
      else (none, sm)
    | none => (none, sm)
  else (none, sm)

/-- A caller manually storing `v` back into chunk `index`'s atomic state.  The
source offers no scoped guard, so releasing an acquired chunk is modelled as
the caller resetting the state by hand (spec section 4.4). -/
def release (sm : SplitMut T) (index : Nat) (v : Int) : SplitMut T :=
  { sm with access := sm.access.set index v }

/-- A chunk whose first element is in range lies within the access array. -/
theorem index_lt_splitCount {len ss i : Nat} (hss : 0 < ss) (hi : i * ss < len) :
    i < splitCount len ss := by
  unfold splitCount
  rcases Nat.eq_zero_or_pos (len % ss) with h | h
  · rw [if_pos h]
    have hdvd : ss ∣ len := Nat.dvd_of_mod_eq_zero h
    have : i < len / ss := by
      rw [Nat.lt_div_iff_mul_lt hdvd, Nat.mul_comm]
      omega
    omega
  · rw [if_neg (by omega)]
    have : i ≤ len / ss := by
      rw [Nat.le_div_iff_mul_le hss]
      omega
    omega

/-- Evaluation of `read` when the chunk is in range and its state is known. -/
theorem read_eq (sm : SplitMut T) (i : Nat) (v : Int)
    (hlow : i * sm.splitSize < sm.elems.length) (hv : sm.access[i]? = some v) :
    read sm i =
      if v ≤ 0 then
        (some (sliceOf sm i), { sm with access := sm.access.set i (v - 1) })
      else (none, sm) := by
  unfold read
  rw [if_pos hlow, hv]

/-- Evaluation of `write` when the chunk is in range and its state is known. -/
theorem write_eq (sm : SplitMut T) (i : Nat) (v : Int)
    (hlow : i * sm.splitSize < sm.elems.length) (hv : sm.access[i]? = some v) :
    write sm i =
      if v = 0 then
        (some (sliceOf sm i), { sm with access := sm.access.set i 1 })
      else (none, sm) := by
  unfold write
  rw [if_pos hlow, hv]

end SplitMut

/-- C6: on a fresh `SplitMut`, a successful `write(i)` leaves the chunk state
at `1`, making every subsequent `read(i)` and `write(i)` return `None` until
the state is stored back to `0`, after which `read(i)` succeeds again; two
successive `read(i)` calls with no writer both succeed; and neither a
`write(i)` nor a `read(i)` changes the outcome of `read`/`write` on a
different in-range chunk `j ≠ i`. -/
theorem splitmut_chunk_access (T : Type) (elems : List T) (ss i j : Nat)
    (hss : 0 < ss) (hi : i * ss < elems.length) (hj : j * ss < elems.length)
    (hij : i ≠ j) :
    (SplitMut.write (SplitMut.new elems ss) i).1 =
        some (SplitMut.sliceOf (SplitMut.new elems ss) i) ∧
    (SplitMut.read (SplitMut.write (SplitMut.new elems ss) i).2 i).1 = none ∧
    (SplitMut.write (SplitMut.write (SplitMut.new elems ss) i).2 i).1 = none ∧
    (SplitMut.read (SplitMut.release (SplitMut.write (SplitMut.new elems ss) i).2 i 0) i).1 =
        some (SplitMut.sliceOf (SplitMut.new elems ss) i) ∧
    (SplitMut.read (SplitMut.write (SplitMut.new elems ss) i).2 j).1 =
        some (SplitMut.sliceOf (SplitMut.new elems ss) j) ∧
    (SplitMut.write (SplitMut.write (SplitMut.new elems ss) i).2 j).1 =
        some (SplitMut.sliceOf (SplitMut.new elems ss) j) ∧
    (SplitMut.read (SplitMut.new elems ss) i).1 =
        some (SplitMut.sliceOf (SplitMut.new elems ss) i) ∧
    (SplitMut.read (SplitMut.read (SplitMut.new elems ss) i).2 i).1 =
        some (SplitMut.sliceOf (SplitMut.new elems ss) i) ∧
    (SplitMut.read (SplitMut.read (SplitMut.new elems ss) i).2 j).1 =
        some (SplitMut.sliceOf (SplitMut.new elems ss) j) ∧
    (SplitMut.write (SplitMut.read (SplitMut.new elems ss) i).2 j).1 =
        some (SplitMut.sliceOf (SplitMut.new elems ss) j) := by
  have hiC : i < SplitMut.splitCount elems.length ss := SplitMut.index_lt_splitCount hss hi
  have hjC : j < SplitMut.splitCount elems.length ss := SplitMut.index_lt_splitCount hss hj
  simp [SplitMut.read, SplitMut.write, SplitMut.release, SplitMut.new, SplitMut.sliceOf,
    hi, hj, hiC, hjC, hij, List.getElem?_replicate, List.getElem?_set_ne,
    List.getElem?_set_self, List.length_replicate, List.length_set]

/-- Witness for C6: on `[10,20,30,40]` split into chunks of 2, a held write on
chunk 0 blocks reads of chunk 0 but not of chunk 1, and two successive reads
of chunk 0 both succeed. -/
theorem splitmut_chunk_access_witness :
    (SplitMut.read (SplitMut.write (SplitMut.new [10, 20, 30, 40] 2) 0).2 0).1 = none ∧
    (SplitMut.read (SplitMut.write (SplitMut.new [10, 20, 30, 40] 2) 0).2 1).1 =
      some (SplitMut.sliceOf (SplitMut.new [10, 20, 30, 40] 2) 1) ∧
    (SplitMut.read (SplitMut.read (SplitMut.new [10, 20, 30, 40] 2) 0).2 0).1 =
      some (SplitMut.sliceOf (SplitMut.new [10, 20, 30, 40] 2) 0) := by
  have h := splitmut_chunk_access Nat [10, 20, 30, 40] 2 0 1
    (by decide) (by decide) (by decide) (by decide)
  exact ⟨h.2.1, h.2.2.2.2.1, h.2.2.2.2.2.2.2.1⟩

/- ------------------------------------------------------------------ -/
/- Blocks, the block builder and the open-path registry (block.rs).    -/
/- ------------------------------------------------------------------ -/

/-- The two configuration errors of `BlockError` (block.rs lines 157-166).
I/O errors are outside the model: file and mmap operations are treated as
infallible, matching the spec's view that I/O failures are merely wrapped. -/
inductive BlockError where
  | missingCapacity (isAnon : Bool)
  | pathAlreadyOpened (path : Nat)
deriving DecidableEq

/-- A built `Block<T>` (block.rs lines 168-174), keeping the fields the claims
depend on: the optional backing path, the mapped byte size (`space_req`, which
equals the file length for a path-backed block) and the element capacity.
Paths are modelled as natural numbers. -/
structure Block where
  diskPath : Option Nat
  size : Nat
  capacity : Nat
deriving DecidableEq

/-- Result of one `BlockBuilder::build` call: the returned value together with
the process-wide open-path registry (`OPEN_PATHS`) and the file system (a map
from path to file length) after the call. -/
structure BuildResult where
  result : Except BlockError Block
  reg : List Nat
  fs : Nat → Option Nat

/-- `create_mmap` (block.rs lines 123-136): the file is opened with
`create(true)` (created empty if absent) and, whenever its length differs from
`space_req`, resized with `set_len(space_req)` before being mapped, so after
the call the file at `p` has exactly `space_req` bytes. -/
def createMmap (fs : Nat → Option Nat) (spaceReq : Nat) (p : Nat) : Nat → Option Nat :=
  fun q => if q = p then some spaceReq else fs q

/-- `BlockBuilder::build` (block.rs lines 72-116) with `w` modelling
`size_of::<T>()`.  Faithful to the source order: the path is checked against
and inserted into `OPEN_PATHS` first (lines 74-82); only then is the capacity
resolved (lines 84-100) -- an explicit capacity gives `space_req = w * c`, no
capacity infers `len / w` slots from an existing file's length and errors with
`MissingCapacity` otherwise -- and the map is created.  Note that the error
returns taken after the registry insertion do not remove the inserted path. -/
def buildM (reg : List Nat) (fs : Nat → Option Nat) (diskPath : Option Nat)
    (cap : Option Nat) (w : Nat) : BuildResult :=
  match diskPath with
  | some p =>
    if p ∈ reg then ⟨.error (.pathAlreadyOpened p), reg, fs⟩
    else
      match cap with
      | some c => ⟨.ok ⟨some p, w * c, c⟩, p :: reg, createMmap fs (w * c) p⟩
      | none =>
        match fs p with
        | some len =>
          ⟨.ok ⟨some p, w * (len / w), len / w⟩, p :: reg, createMmap fs (w * (len / w)) p⟩
        | none => ⟨.error (.missingCapacity false), p :: reg, fs⟩
  | none =>
    match cap with
    | some c => ⟨.ok ⟨none, w * c, c⟩, reg, fs⟩
    | none => ⟨.error (.missingCapacity true), reg, fs⟩

/-- `Block::drop` (block.rs lines 254-263): remove the path, if any, from the
open-path registry (the flush has no effect on the modelled file lengths). -/
def dropBlock (b : Block) (reg : List Nat) : List Nat :=
  match b.diskPath with
  | some p => reg.erase p
  | none => reg

/-- `Blocks::new::<T>` (block.rs lines 141-155): `builder().with_type::<T>().build().unwrap()`
on a builder with no path and no capacity; `none` models the `unwrap` panic. -/
def blocksNew (w : Nat) (reg : List Nat) (fs : Nat → Option Nat) : Option Block :=
  match (buildM reg fs none none w).result with
  | .ok b => some b
  | .error _ => none

/-- C9: `Blocks::new::<T>()` builds with neither a capacity nor a disk path,
so `build` returns `MissingCapacity { is_anon: true }` for every element size
and every prior registry/file-system state, and the `unwrap` panics (modelled
by `none`); the registry is untouched. -/
theorem blocks_new_always_panics (w : Nat) (reg : List Nat) (fs : Nat → Option Nat) :
    (buildM reg fs none none w).result = .error (.missingCapacity true) ∧
    blocksNew w reg fs = none ∧
    (buildM reg fs none none w).reg = reg :=
  ⟨rfl, rfl, rfl⟩

/-- C8: the claim says a failed `build` leaves the open-path registry
unchanged so that retrying with a valid configuration succeeds.  The code
inserts the path before resolving the capacity: building path 0 with no
capacity and no existing file returns `MissingCapacity` yet leaves path 0
registered, and the retry with a capacity fails with `PathAlreadyOpened`. -/
theorem build_error_leaves_path_registered :
    (buildM [] (fun _ => none) (some 0) none 8).result = .error (.missingCapacity false) ∧
    (buildM [] (fun _ => none) (some 0) none 8).reg = [0] ∧
    (buildM (buildM [] (fun _ => none) (some 0) none 8).reg
        (buildM [] (fun _ => none) (some 0) none 8).fs (some 0) (some 4) 8).result =
      .error (.pathAlreadyOpened 0) :=
  ⟨rfl, rfl, rfl⟩

/-- C5: while a block built on path `p` is alive, a second `build` on `p`
fails with `PathAlreadyOpened`, creating no block and leaving the registry and
the file untouched; once the first block is dropped (which erases `p` from the
registry), a further build on `p` succeeds again. -/
theorem build_second_open_fails_until_drop (p c w : Nat) (cap2 : Option Nat)
    (reg : List Nat) (fs : Nat → Option Nat) (hp : p ∉ reg) (hw : 0 < w) (hc : 0 < c) :
    (buildM reg fs (some p) (some c) w).result = .ok ⟨some p, w * c, c⟩ ∧
    (buildM (buildM reg fs (some p) (some c) w).reg (buildM reg fs (some p) (some c) w).fs
        (some p) cap2 w).result = .error (.pathAlreadyOpened p) ∧
    (buildM (buildM reg fs (some p) (some c) w).reg (buildM reg fs (some p) (some c) w).fs
        (some p) cap2 w).reg = (buildM reg fs (some p) (some c) w).reg ∧
    (buildM (buildM reg fs (some p) (some c) w).reg (buildM reg fs (some p) (some c) w).fs
        (some p) cap2 w).fs p = (buildM reg fs (some p) (some c) w).fs p ∧
    (buildM (dropBlock ⟨some p, w * c, c⟩ (buildM reg fs (some p) (some c) w).reg)
        (buildM reg fs (some p) (some c) w).fs (some p) (some c) w).result =
      .ok ⟨some p, w * c, c⟩ := by
  have h1 : buildM reg fs (some p) (some c) w =
      ⟨.ok ⟨some p, w * c, c⟩, p :: reg, createMmap fs (w * c) p⟩ := by
    unfold buildM
    dsimp only
    rw [if_neg hp]
  rw [h1]
  dsimp only
  have h2 : buildM (p :: reg) (createMmap fs (w * c) p) (some p) cap2 w =
      ⟨.error (.pathAlreadyOpened p), p :: reg, createMmap fs (w * c) p⟩ := by
    unfold buildM
    dsimp only
    rw [if_pos (List.mem_cons_self p reg)]
  rw [h2]
  dsimp only
  have h3 : dropBlock ⟨some p, w * c, c⟩ (p :: reg) = reg := by
    unfold dropBlock
    exact List.erase_cons_head p reg
  rw [h3]
  have h4 : buildM reg (createMmap fs (w * c) p) (some p) (some c) w =
      ⟨.ok ⟨some p, w * c, c⟩, p :: reg,
        createMmap (createMmap fs (w * c) p) (w * c) p⟩ := by
    unfold buildM
    dsimp only
    rw [if_neg hp]
  rw [h4]
  exact ⟨rfl, rfl, rfl, rfl, rfl⟩

/-- Witness for C5 at path 0, capacity 1, 8-byte elements, empty registry. -/
theorem build_second_open_fails_until_drop_witness :
    (buildM [] (fun _ => none) (some 0) (some 1) 8).result = .ok ⟨some 0, 8 * 1, 1⟩ ∧
    (buildM (buildM [] (fun _ => none) (some 0) (some 1) 8).reg
        (buildM [] (fun _ => none) (some 0) (some 1) 8).fs
        (some 0) (some 2) 8).result = .error (.pathAlreadyOpened 0) ∧
    (buildM (buildM [] (fun _ => none) (some 0) (some 1) 8).reg
        (buildM [] (fun _ => none) (some 0) (some 1) 8).fs
        (some 0) (some 2) 8).reg = (buildM [] (fun _ => none) (some 0) (some 1) 8).reg ∧
    (buildM (buildM [] (fun _ => none) (some 0) (some 1) 8).reg
        (buildM [] (fun _ => none) (some 0) (some 1) 8).fs
        (some 0) (some 2) 8).fs 0 = (buildM [] (fun _ => none) (some 0) (some 1) 8).fs 0 ∧
    (buildM (dropBlock ⟨some 0, 8 * 1, 1⟩ (buildM [] (fun _ => none) (some 0) (some 1) 8).reg)
        (buildM [] (fun _ => none) (some 0) (some 1) 8).fs (some 0) (some 1) 8).result =
      .ok ⟨some 0, 8 * 1, 1⟩ :=
  build_second_open_fails_until_drop 0 1 8 (some 2) [] (fun _ => none)
    (by decide) (by decide) (by decide)

/-- C10: building with an explicit capacity on a path whose file already
exists with a different length resizes the file to `size_of::<T>() * capacity`
bytes before mapping, rather than mapping the file's existing length. -/
theorem build_resizes_existing_file (p c w len0 : Nat) (reg : List Nat)
    (fs : Nat → Option Nat) (hp : p ∉ reg) (hfs : fs p = some len0)
    (hne : len0 ≠ w * c) (hw : 0 < w) (hc : 0 < c) :
    (buildM reg fs (some p) (some c) w).result = .ok ⟨some p, w * c, c⟩ ∧
    (buildM reg fs (some p) (some c) w).fs p = some (w * c) ∧
    (buildM reg fs (some p) (some c) w).fs p ≠ some len0 := by
  have h1 : buildM reg fs (some p) (some c) w =
      ⟨.ok ⟨some p, w * c, c⟩, p :: reg, createMmap fs (w * c) p⟩ := by
    unfold buildM
    dsimp only
    rw [if_neg hp]
  rw [h1]
  refine ⟨rfl, ?_, ?_⟩
  · show createMmap fs (w * c) p p = some (w * c)
    unfold createMmap
    rw [if_pos rfl]
  · show createMmap fs (w * c) p p ≠ some len0
    unfold createMmap
    rw [if_pos rfl]
    intro hcon
    injection hcon with hcon
    exact hne hcon.symm

/-- Witness for C10: path 0 holds a 24-byte file; rebuilding with capacity 1
for 8-byte elements truncates it to 8 bytes. -/
theorem build_resizes_existing_file_witness :
    (buildM [] (fun q => if q = 0 then some 24 else none) (some 0) (some 1) 8).result =
      .ok ⟨some 0, 8 * 1, 1⟩ ∧
    (buildM [] (fun q => if q = 0 then some 24 else none) (some 0) (some 1) 8).fs 0 =
      some (8 * 1) ∧
    (buildM [] (fun q => if q = 0 then some 24 else none) (some 0) (some 1) 8).fs 0 ≠
      some 24 :=
  build_resizes_existing_file 0 1 8 24 [] (fun q => if q = 0 then some 24 else none)
    (by decide) rfl (by decide) (by decide) (by decide)

/-- C4: the round-trip claim fails for 8-byte elements.  Starting from a fresh
64-byte path-backed arena, pushing eight values triggers no growth, so on drop
the backing file is 64 bytes long; it has room for only
`(64 - 8) / 8 = 7` whole element slots, while the persisted length word says
8.  The eighth element was written outside the mapped file, so the reopened
vector cannot hold the pushed value at index 7. -/
theorem round_trip_loses_eighth_element :
    (PersistentVec.pushN 8 (⟨64, []⟩ : PersistentVec Nat)
      [1, 2, 3, 4, 5, 6, 7, 8]).size = 64 ∧
    (PersistentVec.pushN 8 (⟨64, []⟩ : PersistentVec Nat)
      [1, 2, 3, 4, 5, 6, 7, 8]).elems.length = 8 ∧
    PersistentVec.slotCapacitySpec
      (PersistentVec.pushN 8 (⟨64, []⟩ : PersistentVec Nat)
        [1, 2, 3, 4, 5, 6, 7, 8]).size 8 = 7 ∧
    usizeSize + (PersistentVec.pushN 8 (⟨64, []⟩ : PersistentVec Nat)
      [1, 2, 3, 4, 5, 6, 7, 8]).elems.length * 8 >
      (PersistentVec.pushN 8 (⟨64, []⟩ : PersistentVec Nat)
        [1, 2, 3, 4, 5, 6, 7, 8]).size := by
  decide
